import Mathlib

/-!
Verification development for the ContractMind backend's intent-to-call
compiler and event-extraction pipeline.

The Python source is shallowly embedded: pure computations (keccak-based
selectors, ABI encoding/decoding of the closed catalog of types, string
keyword matching, agent-identifier normalization) are translated into
executable Lean functions; the remote node, the web3 event decoder and the
cache are modelled as explicit oracle parameters, so that each endpoint
handler becomes a total function from its inputs and oracle answers to its
response value.  Bytes are `List Nat` with every element `< 256`; machine
words are `Nat` reduced `% 2 ^ 64` where overflow matters.
-/

namespace ContractMind

/-! ## Byte and string helpers -/

/-- ASCII lower-casing of a single character, as Python `str.lower` acts on
the ASCII range (all catalog keywords and action labels are ASCII). -/
def lowerChar (c : Char) : Char :=
  if 'A' ≤ c ∧ c ≤ 'Z' then Char.ofNat (c.toNat + 32) else c

/-- ASCII lower-casing of a string (Python `s.lower()` on ASCII input). -/
def lowerStr (s : String) : String :=
  String.mk (s.toList.map lowerChar)

/-- UTF-8 bytes of a string; on the ASCII strings used by the catalog this
is just the code points (Python `s.encode()`). -/
def strBytes (s : String) : List Nat :=
  s.toList.map Char.toNat

/-- Python `needle in hay` on lists of characters. -/
def listHasSub (needle hay : List Char) : Bool :=
  match hay with
  | [] => needle.isEmpty
  | _ :: tail => needle.isPrefixOf hay || listHasSub needle tail

/-- Python `needle in hay` substring test on strings. -/
def strHasSub (needle hay : String) : Bool :=
  listHasSub needle.toList hay.toList

/-- Value of an ASCII hex digit, `none` for any other character. -/
def hexDigit (c : Char) : Option Nat :=
  if '0' ≤ c ∧ c ≤ '9' then some (c.toNat - '0'.toNat)
  else if 'a' ≤ c ∧ c ≤ 'f' then some (c.toNat - 'a'.toNat + 10)
  else if 'A' ≤ c ∧ c ≤ 'F' then some (c.toNat - 'A'.toNat + 10)
  else none

/-- Python `bytes.fromhex`: pairs of hex digits, failing on an odd digit
count or a non-hex character.  (The stdlib additionally skips ASCII
whitespace between bytes; no identifier in this development contains
whitespace, so that case is not modelled.) -/
def bytesFromHexList : List Char → Option (List Nat)
  | [] => some []
  | [_] => none
  | hi :: lo :: rest => do
      let h ← hexDigit hi
      let l ← hexDigit lo
      let tail ← bytesFromHexList rest
      pure ((h * 16 + l) :: tail)

/-- Python `s.startswith("0x")` (expressed over the character list so the
kernel can evaluate it). -/
def hasPrefix0x (s : String) : Bool :=
  ("0x".toList).isPrefixOf s.toList

/-- Big-endian bytes of `n`, padded on the left to `w` bytes
(the ABI word layout for unsigned integers and addresses). -/
def natToBytesBE (w n : Nat) : List Nat :=
  (List.range w).map (fun i => n >>> (8 * (w - 1 - i)) % 256)

/-- Big-endian value of a byte list. -/
def bytesToNatBE (bs : List Nat) : Nat :=
  bs.foldl (fun acc b => acc * 256 + b) 0

/-! ## Keccak-256 (the hash behind `Web3.keccak`)

Faithful implementation of Keccak-f[1600] with rate 1088 and the 0x01
multi-rate padding used by Ethereum.  The state is a list of 25 lanes,
each a `Nat` kept below `2 ^ 64`; lane `(x, y)` lives at index `x + 5*y`. -/

/-- 64-bit left rotation. -/
def rotl64 (x n : Nat) : Nat :=
  ((x <<< n) ||| (x >>> (64 - n))) % (2 ^ 64)

/-- Keccak round constants (RC[0..23] of the iota step, written in
decimal; the selector theorems below check the whole hash against the
known digests, which pins these values down). -/
def keccakRC : List Nat :=
  [1, 32898,
   9223372036854808714, 9223372039002292224,
   32907, 2147483649,
   9223372039002292353, 9223372036854808585,
   138, 136,
   2147516425, 2147483658,
   2147516555, 9223372036854775947,
   9223372036854808713, 9223372036854808579,
   9223372036854808578, 9223372036854775936,
   32778, 9223372039002259466,
   9223372039002292353, 9223372036854808704,
   2147483649, 9223372039002292232]

/-- Rho rotation offsets by row (`y` fixed per row, `x` varying). -/
def rhoOffsetRows : List (List Nat) :=
  [[0, 1, 62, 28, 27],
   [36, 44, 6, 55, 20],
   [3, 10, 43, 25, 39],
   [41, 45, 15, 21, 8],
   [18, 2, 61, 56, 14]]

/-- Rho rotation offsets, indexed by `x + 5*y`. -/
def rhoOffsets : List Nat :=
  rhoOffsetRows.flatten

/-- Theta step. -/
def theta (A : List Nat) : List Nat :=
  let C := (List.range 5).map (fun x =>
    A.getD x 0 ^^^ A.getD (x + 5) 0 ^^^ A.getD (x + 10) 0 ^^^
      A.getD (x + 15) 0 ^^^ A.getD (x + 20) 0)
  let D := (List.range 5).map (fun x =>
    C.getD ((x + 4) % 5) 0 ^^^ rotl64 (C.getD ((x + 1) % 5) 0) 1)
  (List.range 25).map (fun i => A.getD i 0 ^^^ D.getD (i % 5) 0)

/-- Combined rho and pi steps: output lane `(X, Y)` is the rotated input
lane `(x, y)` with `y = X` and `x = (X + 3*Y) % 5`. -/
def rhoPi (A : List Nat) : List Nat :=
  (List.range 25).map (fun j =>
    let X := j % 5
    let Y := j / 5
    let x := (X + 3 * Y) % 5
    let y := X
    rotl64 (A.getD (x + 5 * y) 0) (rhoOffsets.getD (x + 5 * y) 0))

/-- Chi step; complement is xor with the all-ones 64-bit word. -/
def chi (B : List Nat) : List Nat :=
  (List.range 25).map (fun j =>
    let X := j % 5
    let Y := j / 5
    B.getD j 0 ^^^
      ((B.getD ((X + 1) % 5 + 5 * Y) 0 ^^^ (2 ^ 64 - 1)) &&&
        B.getD ((X + 2) % 5 + 5 * Y) 0))

/-- Iota step: xor the round constant into lane (0,0). -/
def iota (rc : Nat) (A : List Nat) : List Nat :=
  match A with
  | [] => []
  | a :: rest => (a ^^^ rc) :: rest

/-- One Keccak round. -/
def keccakRound (A : List Nat) (rc : Nat) : List Nat :=
  iota rc (chi (rhoPi (theta A)))

/-- The full Keccak-f[1600] permutation (24 rounds). -/
def keccakF (A : List Nat) : List Nat :=
  keccakRC.foldl keccakRound A

/-- Multi-rate padding for rate 136 bytes with suffix 0x01 (Ethereum
Keccak-256, not SHA3's 0x06). -/
def keccakPad (msg : List Nat) : List Nat :=
  let r := 136
  let padLen := r - msg.length % r
  if padLen = 1 then msg ++ [0x81]
  else msg ++ [0x01] ++ List.replicate (padLen - 2) 0 ++ [0x80]

/-- Split a byte list into 136-byte blocks, structurally recursive on a
fuel bound so the kernel can evaluate it. -/
def chunk136Aux : Nat → List Nat → List (List Nat)
  | 0, _ => []
  | _, [] => []
  | fuel + 1, a :: rest =>
      ((a :: rest).take 136) :: chunk136Aux fuel ((a :: rest).drop 136)

/-- Split a byte list into 136-byte blocks (each step consumes at least one
byte, so `l.length + 1` fuel always suffices). -/
def chunk136 (l : List Nat) : List (List Nat) :=
  chunk136Aux (l.length + 1) l

/-- Little-endian 64-bit lane from up to 8 bytes. -/
def bytesToLane (bs : List Nat) : Nat :=
  bs.foldr (fun b acc => acc * 256 + b) 0

/-- Little-endian bytes of a 64-bit lane. -/
def laneToBytes (x : Nat) : List Nat :=
  (List.range 8).map (fun i => x >>> (8 * i) % 256)

/-- Absorb one 136-byte block: xor into the first 17 lanes, then permute. -/
def absorbBlock (A : List Nat) (block : List Nat) : List Nat :=
  let lanes := (List.range 17).map (fun i => bytesToLane ((block.drop (8 * i)).take 8))
  keccakF ((List.range 25).map (fun i =>
    A.getD i 0 ^^^ (if i < 17 then lanes.getD i 0 else 0)))

/-- Keccak-256 of a byte list: pad, absorb, squeeze the first 32 bytes. -/
def keccak256 (msg : List Nat) : List Nat :=
  let final := (chunk136 (keccakPad msg)).foldl absorbBlock (List.replicate 25 0)
  ((List.range 4).map (fun i => laneToBytes (final.getD i 0))).flatten

/-- `Web3.keccak(text=sig)[:4]`: the 4-byte function selector of a
canonical signature string. -/
def selector (sig : String) : List Nat :=
  (keccak256 (strBytes sig)).take 4

/-! ## Agent-identifier normalization

`blockchain_service.py` (`get_agent`, `is_agent_active`,
`validate_transaction`) and the chat read path (`chat.py` lines 209-213)
all normalize an agent identifier with the same expression:
a string starting with `0x` goes through `bytes.fromhex` verbatim, any
other string is UTF-8 encoded, right-padded with zero bytes and truncated
to 32 (`encode().ljust(32, b"\x00")[:32]`).  `bytes.fromhex` can raise,
hence the `Option`. -/
def normalizeAgentId (agentId : String) : Option (List Nat) :=
  if hasPrefix0x agentId then
    bytesFromHexList (agentId.toList.drop 2)
  else
    let b := strBytes agentId
    some ((b ++ List.replicate (32 - b.length) 0).take 32)

/-! ## Intent classification (`chat.py` lines 125-196)

The classifier is pure string logic over the parsed intent's action label
and the free-text message; it performs no I/O. -/

/-- The fixed write-action set (`chat.py` line 126). -/
def writeActions : List String :=
  ["stake", "withdraw", "claim", "swap", "lend", "borrow"]

/-- `requires_tx = (parsed_intent.action or "").lower() in write_actions`
(`chat.py` line 127).  The action label of a parsed intent may be absent
(`None`), hence the `Option`; the free-text message is taken as an
argument to make the classifier's independence from it statable. -/
def classifyWrite (message : String) (action : Option String) : Bool :=
  writeActions.contains (lowerStr (action.getD ""))

/-- A read function resolved from the Interface Catalog keyword table:
signature, argument types, bound argument values, declared return types
and the keys of the response data mapping (`chat.py` lines 144-184). -/
structure ResolvedRead where
  fn : String
  argTypes : List String
  args : List String
  outTypes : List String
  dataKeys : List String
  deriving Repr, DecidableEq

/-- The keyword table of `chat.py` lines 151-184 as an explicit
priority-ordered list of (predicate over the lowered message and action,
resolution) pairs, first match wins. -/
def readRules (userAddress : String) : List ((String × String → Bool) × ResolvedRead) :=
  [(fun p => strHasSub "balance" p.1 || (p.2 == "balance" || p.2 == "balanceof"),
    ⟨"balanceOf(address)", ["address"], [userAddress], ["uint256"], ["balance"]⟩),
   (fun p => strHasSub "pending" p.1 || strHasSub "rewards" p.1 || p.2 == "pendingrewards",
    ⟨"pendingRewards(address)", ["address"], [userAddress], ["uint256"], ["rewards"]⟩),
   (fun p => strHasSub "apy" p.1 || (p.2 == "getcurrentapy" || p.2 == "apy"),
    ⟨"getCurrentAPY()", [], [], ["uint256"], ["apy"]⟩),
   (fun p => strHasSub "tvl" p.1 || (p.2 == "gettvl" || p.2 == "tvl"),
    ⟨"getTVL()", [], [], ["uint256"], ["tvl"]⟩),
   (fun p => strHasSub "stake info" p.1 || strHasSub "stakeinfo" p.1 || p.2 == "getstakeinfo",
    ⟨"getStakeInfo(address)", ["address"], [userAddress],
      ["uint256", "uint256", "uint256", "uint256"],
      ["stakedAmount", "rewards", "stakingDuration", "apy"]⟩)]

/-- Read-function detection (`chat.py` lines 138-184): lower the message
and action, then walk the `if`/`elif` keyword chain; `none` is the
"Unknown read" outcome of line 186. -/
def resolveRead (message : String) (action : Option String) (userAddress : String) :
    Option ResolvedRead :=
  let msgLower := lowerStr message
  let actionLower := lowerStr (action.getD "")
  if strHasSub "balance" msgLower || (actionLower == "balance" || actionLower == "balanceof") then
    some ⟨"balanceOf(address)", ["address"], [userAddress], ["uint256"], ["balance"]⟩
  else if strHasSub "pending" msgLower || strHasSub "rewards" msgLower
      || actionLower == "pendingrewards" then
    some ⟨"pendingRewards(address)", ["address"], [userAddress], ["uint256"], ["rewards"]⟩
  else if strHasSub "apy" msgLower || (actionLower == "getcurrentapy" || actionLower == "apy") then
    some ⟨"getCurrentAPY()", [], [], ["uint256"], ["apy"]⟩
  else if strHasSub "tvl" msgLower || (actionLower == "gettvl" || actionLower == "tvl") then
    some ⟨"getTVL()", [], [], ["uint256"], ["tvl"]⟩
  else if strHasSub "stake info" msgLower || strHasSub "stakeinfo" msgLower
      || actionLower == "getstakeinfo" then
    some ⟨"getStakeInfo(address)", ["address"], [userAddress],
      ["uint256", "uint256", "uint256", "uint256"],
      ["stakedAmount", "rewards", "stakingDuration", "apy"]⟩
  else
    none

/-! ## ABI codec subset (`eth_abi.encode` / `eth_abi.decode` as used here)

The read path only ever encodes `address` arguments and decodes tuples of
`uint256`; both are static 32-byte-word types. -/

/-- An address literal `0x` + 40 hex digits, as the 160-bit value eth_abi
canonicalizes it to; `none` models the exception for an ill-formed
address. -/
def parseAddr (s : String) : Option Nat :=
  if hasPrefix0x s && (s.toList.drop 2).length = 40 then
    (bytesFromHexList (s.toList.drop 2)).map bytesToNatBE
  else none

/-- Encoding of one static argument (only `address` occurs in the read
catalog): a 32-byte word, value left-padded. -/
def encodeArg (ty v : String) : Option (List Nat) :=
  if ty = "address" then (parseAddr v).map (natToBytesBE 32) else none

/-- `eth_abi.encode(types, args)` for the static types used here: the
concatenated head words, positional and order-significant; the empty type
list encodes to empty bytes. -/
def abiEncode : List String → List String → Option (List Nat)
  | [], [] => some []
  | t :: ts, v :: vs => do
      let w ← encodeArg t v
      let rest ← abiEncode ts vs
      pure (w ++ rest)
  | _, _ => none

/-- `eth_abi.decode` of an `n`-tuple of `uint256`: each value is a 32-byte
big-endian word; `none` (the `DecodeError`) when the byte string is too
short for the claimed arity. -/
def decodeUints (n : Nat) (raw : List Nat) : Option (List Nat) :=
  if 32 * n ≤ raw.length then
    some ((List.range n).map (fun i => bytesToNatBE ((raw.drop (32 * i)).take 32)))
  else none

/-! ## Chain query executor: the read path of `chat.py` lines 129-247 -/

/-- The simulated call the executor hands to the node:
`hub.functions.queryTarget(agent_id_bytes, target, call_data).call({"from": user_address})`.
No transaction is broadcast; the node evaluates it and returns raw bytes. -/
structure QueryCall where
  agentIdBytes : List Nat
  target : String
  callData : List Nat
  sender : String
  deriving Repr, DecidableEq

/-- Outcome of the read path, one constructor per exit of the handler. -/
inductive ReadOutcome where
  /-- `HTTPException(404, "Agent not found")`. -/
  | agentNotFound
  /-- The no-function-resolved query response (`requiresTransaction` false,
  `data` null) carrying the clarification message. -/
  | unknown (response : String)
  /-- An exception escaping to the generic 500 handler (ill-formed
  identifier hex or argument value). -/
  | internalError
  /-- `HTTPException(400, "Query failed: ...")`: the node rejected the
  simulated call; the detail embeds the node's reason verbatim. -/
  | queryError (detail : String)
  /-- `HTTPException(500, "Decode failed: ...")`: returned bytes do not
  decode under the declared return types. -/
  | decodeError
  /-- The successful query response with its data mapping. -/
  | ok (response : String) (data : List (String × Option String))
  deriving Repr, DecidableEq

/-- Python `fn.replace(" ", "")`. -/
def stripSpaces (s : String) : String :=
  String.mk (s.toList.filter (fun c => c ≠ ' '))

/-- Python `x or "the target"`: `None` and the empty string both fall to
the default. -/
def orTheTarget (protocol : Option String) : String :=
  match protocol with
  | none => "the target"
  | some p => if p = "" then "the target" else p

/-- The clarification message of `chat.py` lines 188-191. -/
def unknownResponse (protocol : Option String) : String :=
  "Interpreted as a query on " ++ orTheTarget protocol ++ ". " ++
    "Specify 'balance', 'rewards', 'APY', 'TVL', or 'stake info'."

/-- Python `", ".join(keys)`, structurally recursive. -/
def joinComma : List String → String
  | [] => ""
  | [k] => k
  | k :: rest => k ++ ", " ++ joinComma rest

/-- The success message of `chat.py` lines 238-242. -/
def fetchedResponse (dataKeys : List String) : String :=
  if dataKeys.isEmpty then "Query completed."
  else "Fetched " ++ joinComma dataKeys ++ " from contract."

/-- The response data mapping (`chat.py` lines 231-236): every decoded
value is rendered as its decimal string (`str(val)`), a missing position
as null. -/
def dataEntries (dataKeys : List String) (decoded : List Nat) : List (String × Option String) :=
  dataKeys.enum.map (fun p =>
    (p.2, if p.1 < decoded.length then some (Nat.repr (decoded.getD p.1 0)) else none))

/-- The read path of `process_message_doc_shape` (`chat.py` lines 129-247).
`query` is the node oracle answering the simulated `queryTarget` call
(`Except` error = the node rejected execution); `agentTarget` is the
`target_address` of the agent `blockchain.get_agent` resolved, `none` when
it found no agent. -/
def processRead (query : QueryCall → Except String (List Nat))
    (agentTarget : Option String) (agentId : String) (protocol : Option String)
    (message : String) (action : Option String) (userAddress : String) : ReadOutcome :=
  match agentTarget with
  | none => .agentNotFound
  | some target =>
    match resolveRead message action userAddress with
    | none => .unknown (unknownResponse protocol)
    | some r =>
      let sel := selector (stripSpaces r.fn)
      match (if r.argTypes.isEmpty then some [] else abiEncode r.argTypes r.args) with
      | none => .internalError
      | some encodedArgs =>
        let callData := sel ++ encodedArgs
        match normalizeAgentId agentId with
        | none => .internalError
        | some agentIdBytes =>
          match query ⟨agentIdBytes, target, callData, userAddress⟩ with
          | .error e => .queryError ("Query failed: " ++ e)
          | .ok raw =>
            match (if r.outTypes.isEmpty then some [] else decodeUints r.outTypes.length raw) with
            | none => .decodeError
            | some decoded => .ok (fetchedResponse r.dataKeys) (dataEntries r.dataKeys decoded)

/-! ## Call compiler for agent registration (`agents.py` lines 61-130) -/

/-- The doc-shaped transaction preview assembled at `agents.py`
lines 108-119. -/
structure TxPreview where
  /-- the JSON `to` key (`to` is reserved in Lean) -/
  toAddress : String
  data : Option String
  value : String
  gasEstimate : String
  explanation : String
  functionName : String
  warnings : List String
  deriving Repr, DecidableEq

/-- The `register_agent` response together with the downgraded local gas
price (computed at lines 103-106; advisory only, not part of the HTTP
payload). -/
structure RegisterResult where
  success : Bool
  requiresTransaction : Bool
  transaction : TxPreview
  gasPrice : Option Nat
  deriving Repr, DecidableEq

/-- `register_agent` (`agents.py` lines 97-125) after the transaction has
been built: `txData` is the calldata the registry contract object
produced, `gasEstimateResult` and `gasPriceResult` are the node oracles
for `estimate_gas` and `get_gas_price` (`Except` error = the call
raised). -/
def registerAgent (txData : Option String)
    (gasEstimateResult : Except String Nat) (gasPriceResult : Except String Nat)
    (name registryAddress : String) : RegisterResult :=
  let gasEstimate := match gasEstimateResult with
    | .ok g => g
    | .error _ => 500000
  let gasPrice := match gasPriceResult with
    | .ok p => some p
    | .error _ => none
  { success := true
    requiresTransaction := true
    gasPrice := gasPrice
    transaction :=
      { toAddress := registryAddress
        data := txData
        value := "0"
        gasEstimate := Nat.repr gasEstimate
        explanation := "Register agent '" ++ name ++ "'"
        functionName := "registerAgent"
        warnings := ["Gas fees will apply", "You will grant your agent configuration on-chain"] } }

/-! ## Receipt event extraction and registration reconciliation
(`agents.py` lines 140-237) -/

/-- The fields of the on-chain `getAgent` tuple that the confirm handler
reads (indices 0-4). -/
structure AgentTuple where
  owner : String
  targetContract : String
  name : String
  configIPFS : String
  active : Bool
  deriving Repr, DecidableEq

/-- The `agent` object of the confirm response (`agents.py`
lines 195-201). -/
structure AgentObj where
  id : String
  owner : String
  targetContract : String
  name : String
  active : Bool
  deriving Repr, DecidableEq

/-- Outcome of `confirm_agent_registration`, one constructor per exit. -/
inductive ConfirmOutcome where
  /-- `{"success": False, "error": "Transaction not found or pending"}`:
  the node had no receipt yet. -/
  | pending (txHash : String)
  /-- `{"success": False, "error": "AgentRegistered event not found"}`:
  the receipt was scanned fully and no log decoded as the event. -/
  | eventNotFound (txHash : String)
  /-- `{"success": True, "agentId": ..., "agent": ...}`. -/
  | ok (agentId : String) (agent : Option AgentObj) (txHash : String)
  deriving Repr, DecidableEq

/-- `confirm_agent_registration` (`agents.py` lines 148-232) over an
abstract log type `Λ`.  `tryDecodeAgentRegistered` models
`registry.events.AgentRegistered().process_log` plus the identifier
extraction: `none` when the log does not decode as `AgentRegistered`
(such logs are skipped by the `except: continue`).  `fetchAgent` models
the authoritative `getAgent` chain call (`none` = it raised).
`cacheWriteOk` is whether the cache upsert would succeed.  Returns the
response outcome and, when the cache upsert was reached, the upsert's
result (`none` = never attempted). -/
def confirmRegistration {Λ : Type} (tryDecodeAgentRegistered : Λ → Option String)
    (fetchAgent : String → Option AgentTuple) (cacheWriteOk : Bool)
    (receipt : Option (List Λ)) (txHash : String) : ConfirmOutcome × Option Bool :=
  match receipt with
  | none => (.pending txHash, none)
  | some logs =>
    match logs.findSome? tryDecodeAgentRegistered with
    | none => (.eventNotFound txHash, none)
    | some agentIdHex =>
      match fetchAgent agentIdHex with
      | none => (.ok agentIdHex none txHash, none)
      | some t =>
        (.ok agentIdHex (some ⟨agentIdHex, t.owner, t.targetContract, t.name, t.active⟩) txHash,
          some cacheWriteOk)

/-! ## `validate_transaction` and `is_agent_active`
(`blockchain_service.py` lines 115-158) -/

/-- Selector conversion in `validate_transaction` (lines 144-147): hex
after `0x` via `bytes.fromhex`, otherwise the UTF-8 bytes of the first
four characters. -/
def selectorToBytes (functionSelector : String) : Option (List Nat) :=
  if hasPrefix0x functionSelector then
    bytesFromHexList (functionSelector.toList.drop 2)
  else
    some ((functionSelector.toList.take 4).map Char.toNat)

/-- `validate_transaction`: any raised failure — identifier or selector
conversion, contract lookup or the hub call itself — is caught and turned
into `False`.  `hubValidate` is the node oracle for
`hub.functions.validateTransaction(...).call({"from": user_address})`. -/
def validateTransaction
    (hubValidate : List Nat → String → List Nat → String → Except String Bool)
    (agentId target functionSelector userAddress : String) : Bool :=
  match normalizeAgentId agentId with
  | none => false
  | some agentIdBytes =>
    match selectorToBytes functionSelector with
    | none => false
    | some selectorBytes =>
      match hubValidate agentIdBytes target selectorBytes userAddress with
      | .error _ => false
      | .ok v => v

/-- `is_agent_active`: same catch-all shape, `False` on any failure.
`registryIsActive` is the node oracle for
`registry.functions.isAgentActive(...).call()`. -/
def isAgentActive (registryIsActive : List Nat → Except String Bool)
    (agentId : String) : Bool :=
  match normalizeAgentId agentId with
  | none => false
  | some agentIdBytes =>
    match registryIsActive agentIdBytes with
    | .error _ => false
    | .ok v => v

/-- Generic priority-ordered first-match dispatch over an ordered rule
list: the shape §4.2 of the spec ascribes to the keyword table. -/
def firstMatch {α : Type} : List ((String × String → Bool) × α) → String → String → Option α
  | [], _, _ => none
  | r :: rest, m, a => if r.1 (m, a) then some r.2 else firstMatch rest m a

/-! ## Helper lemmas -/

theorem length_natToBytesBE (w v : Nat) : (natToBytesBE w v).length = w := by
  simp [natToBytesBE]

theorem natToBytesBE_succ (w v : Nat) :
    natToBytesBE (w + 1) v = (v >>> (8 * w) % 256) :: natToBytesBE w v := by
  simp only [natToBytesBE, List.range_succ_eq_map, List.map_cons, List.map_map]
  refine congrArg₂ List.cons ?_ ?_
  · have h0 : w + 1 - 1 - 0 = w := by omega
    rw [h0]
  · apply List.map_congr_left
    intro i _
    simp only [Function.comp_apply]
    have h1 : w + 1 - 1 - Nat.succ i = w - 1 - i := by omega
    rw [h1]

theorem foldl_bytes_eq (bs : List Nat) (a : Nat) :
    bs.foldl (fun acc b => acc * 256 + b) a = a * 256 ^ bs.length + bytesToNatBE bs := by
  induction bs generalizing a with
  | nil => simp [bytesToNatBE]
  | cons b rest ih =>
      simp only [List.foldl_cons, List.length_cons, bytesToNatBE]
      rw [ih (a * 256 + b), ih (0 * 256 + b)]
      ring

theorem bytesToNatBE_natToBytesBE (w v : Nat) :
    bytesToNatBE (natToBytesBE w v) = v % 2 ^ (8 * w) := by
  induction w with
  | zero => simp [natToBytesBE, bytesToNatBE, Nat.mod_one]
  | succ w ih =>
      rw [natToBytesBE_succ]
      have h1 : bytesToNatBE ((v >>> (8 * w) % 256) :: natToBytesBE w v)
          = (v >>> (8 * w) % 256) * 256 ^ w + bytesToNatBE (natToBytesBE w v) := by
        simp only [bytesToNatBE, List.foldl_cons]
        rw [foldl_bytes_eq]
        simp [length_natToBytesBE, bytesToNatBE]
      rw [h1, ih, Nat.shiftRight_eq_div_pow]
      have h256 : (256 : Nat) ^ w = 2 ^ (8 * w) := by
        rw [show (256 : Nat) = 2 ^ 8 from rfl, ← pow_mul]
      have h2 : 2 ^ (8 * (w + 1)) = 2 ^ (8 * w) * 2 ^ 8 := by
        rw [← pow_add]
        ring_nf
      rw [h2, Nat.mod_mul, h256]
      have h8 : (2 : Nat) ^ 8 = 256 := rfl
      rw [h8]
      ring

theorem listHasSub_append_right (n xs ys : List Char) (h : listHasSub n ys = true) :
    listHasSub n (xs ++ ys) = true := by
  induction xs with
  | nil => simpa using h
  | cons x rest ih =>
      simp only [List.cons_append, listHasSub, List.append_eq]
      simp [ih]

theorem toList_append (xs ys : String) : (xs ++ ys).toList = xs.toList ++ ys.toList := by
  cases xs
  cases ys
  rfl

theorem strHasSub_append_right (needle xs ys : String) (h : strHasSub needle ys = true) :
    strHasSub needle (xs ++ ys) = true := by
  simp only [strHasSub, toList_append]
  exact listHasSub_append_right _ _ _ h

theorem bytesFromHexList_length : ∀ (cs : List Char) (l : List Nat),
    bytesFromHexList cs = some l → cs.length = 2 * l.length
  | [], l, h => by
      simp only [bytesFromHexList, Option.some.injEq] at h
      subst h
      rfl
  | [_], _, h => by
      simp only [bytesFromHexList] at h
      exact Option.noConfusion h
  | hi :: lo :: rest, l, h => by
      simp only [bytesFromHexList] at h
      cases hh : hexDigit hi with
      | none => simp [hh] at h
      | some hv =>
          cases hl : hexDigit lo with
          | none => simp [hh, hl] at h
          | some lv =>
              cases ht : bytesFromHexList rest with
              | none => simp [hh, hl, ht] at h
              | some tail =>
                  simp only [hh, hl, ht, Option.bind_eq_bind, Option.some_bind,
                    Option.pure_def, Option.some.injEq] at h
                  subst h
                  have ih := bytesFromHexList_length rest tail ht
                  simp only [List.length_cons]
                  omega

/-! ## The claims -/

set_option maxRecDepth 200000 in
/-- C1: the end-to-end read flow for action "balance" (or a message
containing "balance"): the resolved function is balanceOf(address); the
calldata is the 4-byte keccak selector 0x70a08231 of "balanceOf(address)"
followed by the ABI encoding of the caller's address (and for the
zero-argument getCurrentAPY() the calldata is exactly its 4-byte selector,
the empty argument list encoding to empty bytes); the call executed is the
simulated hub queryTarget(agentIdBytes, target, calldata) from the caller;
and the decoded uint256 is returned as its decimal string under the
"balance" key. -/
theorem balance_read_end_to_end
    (query : QueryCall → Except String (List Nat)) (target agentId : String)
    (protocol : Option String) (message : String) (action : Option String)
    (userAddress : String) (agentIdBytes : List Nat) (addrVal v : Nat)
    (hsel : strHasSub "balance" (lowerStr message) = true ∨
      lowerStr (action.getD "") = "balance")
    (haddr : parseAddr userAddress = some addrVal)
    (hnorm : normalizeAgentId agentId = some agentIdBytes) :
    resolveRead message action userAddress =
      some ⟨"balanceOf(address)", ["address"], [userAddress], ["uint256"], ["balance"]⟩ ∧
    selector "balanceOf(address)" = [0x70, 0xa0, 0x82, 0x31] ∧
    abiEncode [] [] = some [] ∧
    (processRead query (some target) agentId protocol message action userAddress =
      match query ⟨agentIdBytes, target,
          [0x70, 0xa0, 0x82, 0x31] ++ natToBytesBE 32 addrVal, userAddress⟩ with
      | Except.error e => ReadOutcome.queryError ("Query failed: " ++ e)
      | Except.ok raw =>
          match decodeUints 1 raw with
          | none => ReadOutcome.decodeError
          | some decoded =>
              ReadOutcome.ok (fetchedResponse ["balance"]) (dataEntries ["balance"] decoded)) ∧
    (v < 2 ^ 256 →
      query ⟨agentIdBytes, target,
          [0x70, 0xa0, 0x82, 0x31] ++ natToBytesBE 32 addrVal, userAddress⟩ =
        Except.ok (natToBytesBE 32 v) →
      processRead query (some target) agentId protocol message action userAddress =
        ReadOutcome.ok "Fetched balance from contract."
          [("balance", some (Nat.repr v))]) ∧
    (∀ query' : QueryCall → Except String (List Nat),
      processRead query' (some target) agentId protocol "" (some "apy") userAddress =
        match query' ⟨agentIdBytes, target, selector "getCurrentAPY()", userAddress⟩ with
        | Except.error e => ReadOutcome.queryError ("Query failed: " ++ e)
        | Except.ok raw =>
            match decodeUints 1 raw with
            | none => ReadOutcome.decodeError
            | some decoded =>
                ReadOutcome.ok (fetchedResponse ["apy"]) (dataEntries ["apy"] decoded)) ∧
    (selector "getCurrentAPY()").length = 4 := by
  have hres : resolveRead message action userAddress =
      some ⟨"balanceOf(address)", ["address"], [userAddress], ["uint256"], ["balance"]⟩ := by
    rcases hsel with h | h
    · simp [resolveRead, h]
    · simp [resolveRead, h]
  have hselbal : selector "balanceOf(address)" = [0x70, 0xa0, 0x82, 0x31] := by decide
  have hstrip : stripSpaces "balanceOf(address)" = "balanceOf(address)" := by decide
  have h3 : processRead query (some target) agentId protocol message action userAddress =
      match query ⟨agentIdBytes, target,
          [0x70, 0xa0, 0x82, 0x31] ++ natToBytesBE 32 addrVal, userAddress⟩ with
      | Except.error e => ReadOutcome.queryError ("Query failed: " ++ e)
      | Except.ok raw =>
          match decodeUints 1 raw with
          | none => ReadOutcome.decodeError
          | some decoded =>
              ReadOutcome.ok (fetchedResponse ["balance"]) (dataEntries ["balance"] decoded) := by
    simp only [processRead, hres, hstrip, hselbal, abiEncode, encodeArg, haddr, hnorm]
    simp only [List.isEmpty, if_false, Option.map_some', Option.some_bind, Option.pure_def,
      List.append_nil]
    rfl
  refine ⟨hres, hselbal, rfl, h3, ?_, ?_, by decide⟩
  · intro hv hq
    rw [h3, hq]
    have hlen : (natToBytesBE 32 v).length = 32 := length_natToBytesBE 32 v
    have htake : ((natToBytesBE 32 v).drop (32 * 0)).take 32 = natToBytesBE 32 v := by
      simp [List.take_of_length_le, hlen]
    have hdec : decodeUints 1 (natToBytesBE 32 v) = some [v] := by
      have hr1 : List.range 1 = [0] := rfl
      have h256 : (2 : Nat) ^ (8 * 32) = 2 ^ 256 := by norm_num
      simp only [decodeUints, hlen]
      rw [if_pos (by omega)]
      simp only [hr1, List.map_cons, List.map_nil, htake]
      rw [bytesToNatBE_natToBytesBE, h256, Nat.mod_eq_of_lt hv]
    have hfetched : fetchedResponse ["balance"] = "Fetched balance from contract." := by decide
    have hdata : dataEntries ["balance"] [v] = [("balance", some (Nat.repr v))] := by
      simp [dataEntries]
    simp only [hdec]
    rw [hfetched, hdata]
  · intro query'
    have hres6 : resolveRead "" (some "apy") userAddress =
        some ⟨"getCurrentAPY()", [], [], ["uint256"], ["apy"]⟩ := rfl
    have hstrip6 : stripSpaces "getCurrentAPY()" = "getCurrentAPY()" := by decide
    simp only [processRead, hres6, hnorm, hstrip6]
    simp only [List.isEmpty, List.append_nil]
    rfl

set_option maxRecDepth 200000 in
/-- Witness for C1: the agent "erc20-2", caller 0xaaaa...aa and a node
that returns the 32-byte word 123456 produce the decimal string "123456"
under the "balance" key. -/
theorem balance_read_end_to_end_witness :
    processRead (fun _ => Except.ok (natToBytesBE 32 123456)) (some "0xT") "erc20-2"
        (some "erc20") "what is my balance" (some "balance")
        "0xaaaaaaaaaaaaaaaaaaaaaaaaaaaaaaaaaaaaaaaa" =
      ReadOutcome.ok "Fetched balance from contract."
        [("balance", some (Nat.repr 123456))] :=
  (balance_read_end_to_end (fun _ => Except.ok (natToBytesBE 32 123456)) "0xT" "erc20-2"
      (some "erc20") "what is my balance" (some "balance")
      "0xaaaaaaaaaaaaaaaaaaaaaaaaaaaaaaaaaaaaaaaa"
      ([101, 114, 99, 50, 48, 45, 50] ++ List.replicate 25 0)
      0xaaaaaaaaaaaaaaaaaaaaaaaaaaaaaaaaaaaaaaaa 123456
      (Or.inl (by decide)) (by decide) (by decide)).2.2.2.2.1
    (by norm_num) rfl

/-- C2 counterexample: the identifier "0xaa" is accepted at the public
interface, yet normalization takes its hex digits verbatim and produces a
single byte, not 32; the registry call behind is_agent_active then sees a
1-byte identifier. -/
theorem agent_id_not_always_32_bytes :
    normalizeAgentId "0xaa" = some [0xaa] ∧
    (∀ l, normalizeAgentId "0xaa" = some l → l.length ≠ 32) ∧
    isAgentActive
      (fun b => if b.length = 32 then Except.ok true else Except.error "bad identifier length")
      "0xaa" = false := by
  have h0 : normalizeAgentId "0xaa" = some [0xaa] := by decide
  refine ⟨h0, ?_, by decide⟩
  intro l h
  rw [h0] at h
  injection h with h
  subst h
  decide

/-- C2 (amended): a non-hex identifier always normalizes to exactly 32
bytes (UTF-8, right-padded with zeros, truncated); a "0x"-prefixed
identifier has its hex digits taken verbatim, so it normalizes to 32 bytes
exactly when it carries 64 hex digits.  All four chain operations
(get_agent, is_agent_active, validate_transaction, the chat read path)
share this normalization — in this development they are all defined over
the single function `normalizeAgentId`. -/
theorem agent_id_normalization_amended :
    (∀ s : String, hasPrefix0x s = false →
        (normalizeAgentId s).map List.length = some 32) ∧
    (∀ (s : String) (l : List Nat), hasPrefix0x s = true →
        normalizeAgentId s = some l → (s.toList.drop 2).length = 2 * l.length) ∧
    (∀ (s : String) (l : List Nat), hasPrefix0x s = true →
        normalizeAgentId s = some l → (s.toList.drop 2).length = 64 → l.length = 32) := by
  have hhex : ∀ (s : String) (l : List Nat), hasPrefix0x s = true →
      normalizeAgentId s = some l → (s.toList.drop 2).length = 2 * l.length := by
    intro s l hp h
    simp only [normalizeAgentId, hp, if_true] at h
    exact bytesFromHexList_length _ _ h
  refine ⟨?_, hhex, ?_⟩
  · intro s hp
    simp [normalizeAgentId, hp]
    omega
  · intro s l hp h h64
    have := hhex s l hp h
    omega

/-- Witness for C2 (amended): a plain name normalizes to 32 bytes, and a
64-hex-digit hash normalizes to 32 bytes. -/
theorem agent_id_normalization_amended_witness :
    (normalizeAgentId "erc20-2").map List.length = some 32 ∧
    List.length (List.replicate 16 0xaa ++ List.replicate 16 0xbb) = 32 ∧
    normalizeAgentId
        ("0x" ++ String.mk (List.replicate 32 'a') ++ String.mk (List.replicate 32 'b')) =
      some (List.replicate 16 0xaa ++ List.replicate 16 0xbb) :=
  ⟨agent_id_normalization_amended.1 "erc20-2" (by decide),
   agent_id_normalization_amended.2.2
     ("0x" ++ String.mk (List.replicate 32 'a') ++ String.mk (List.replicate 32 'b'))
     (List.replicate 16 0xaa ++ List.replicate 16 0xbb)
     (by decide) (by decide) (by decide),
   by decide⟩

/-- C3: the classifier routes a parsed intent to the write
(transaction-preparing) path exactly when the lowercased action label is in
the fixed set {stake, withdraw, claim, swap, lend, borrow}; the decision
never depends on the free-text message, so action "stake" always routes to
the write path, and any action outside the set routes to the read path. -/
theorem write_route_iff_action_set :
    (∀ (message : String) (action : Option String),
        classifyWrite message action = true ↔
          lowerStr (action.getD "") ∈
            ["stake", "withdraw", "claim", "swap", "lend", "borrow"]) ∧
    (∀ (message message' : String) (action : Option String),
        classifyWrite message action = classifyWrite message' action) ∧
    (∀ message : String, classifyWrite message (some "stake") = true) := by
  refine ⟨?_, ?_, ?_⟩
  · intro message action
    simp [classifyWrite, writeActions]
  · intro _ _ _
    rfl
  · intro message
    rfl

/-- C4: action "balanceof" and a message containing "balance"
(case-insensitively) both resolve to the same signature
"balanceOf(address)"; resolution is the priority-ordered first-match-wins
walk of the fixed rule table; and argument binding is fixed per function:
balanceOf binds the caller's own address, getCurrentAPY binds nothing. -/
theorem read_keyword_resolution :
    (∀ (message userAddress : String),
        resolveRead message (some "balanceof") userAddress =
          some ⟨"balanceOf(address)", ["address"], [userAddress], ["uint256"], ["balance"]⟩) ∧
    (∀ (message : String) (action : Option String) (userAddress : String),
        strHasSub "balance" (lowerStr message) = true →
          resolveRead message action userAddress =
            some ⟨"balanceOf(address)", ["address"], [userAddress], ["uint256"], ["balance"]⟩) ∧
    (∀ (message : String) (action : Option String) (userAddress : String),
        resolveRead message action userAddress =
          firstMatch (readRules userAddress) (lowerStr message) (lowerStr (action.getD ""))) ∧
    (∀ (message : String) (action : Option String) (userAddress : String) (r : ResolvedRead),
        resolveRead message action userAddress = some r →
          (r.fn = "balanceOf(address)" → r.args = [userAddress] ∧ r.argTypes = ["address"]) ∧
          (r.fn = "getCurrentAPY()" → r.args = [] ∧ r.argTypes = [])) := by
  refine ⟨?_, ?_, ?_, ?_⟩
  · intro message userAddress
    have hb : lowerStr "balanceof" = "balanceof" := by decide
    simp [resolveRead, hb]
  · intro message action userAddress h
    simp [resolveRead, h]
  · intro message action userAddress
    rfl
  · intro message action userAddress r h
    simp only [resolveRead] at h
    split_ifs at h
    all_goals first
    | exact Option.noConfusion h
    | (injection h with h
       subst h
       exact ⟨fun hfn => by first | exact ⟨rfl, rfl⟩ | simp at hfn,
              fun hfn => by first | exact ⟨rfl, rfl⟩ | simp at hfn⟩)

/-- C5: when no keyword rule matches a read-path intent, the handler
returns the explicit no-function-resolved query response (not a
transaction and not an error) carrying the clarification message that
names the supported queries: balance, rewards, APY, TVL and stake info. -/
theorem unknown_read_clarifies :
    (∀ (query : QueryCall → Except String (List Nat)) (target agentId : String)
        (protocol : Option String) (message : String) (action : Option String)
        (userAddress : String),
        resolveRead message action userAddress = none →
          processRead query (some target) agentId protocol message action userAddress =
            .unknown (unknownResponse protocol)) ∧
    (∀ protocol : Option String,
        strHasSub "balance" (unknownResponse protocol) = true ∧
        strHasSub "rewards" (unknownResponse protocol) = true ∧
        strHasSub "APY" (unknownResponse protocol) = true ∧
        strHasSub "TVL" (unknownResponse protocol) = true ∧
        strHasSub "stake info" (unknownResponse protocol) = true) := by
  constructor
  · intro query target agentId protocol message action userAddress h
    simp [processRead, h]
  · intro protocol
    refine ⟨?_, ?_, ?_, ?_, ?_⟩ <;>
      exact strHasSub_append_right _ _ _ (by decide)

/-- Witness for C5 at a concrete unresolvable intent. -/
theorem unknown_read_clarifies_witness :
    processRead (fun _ => Except.error "node unreachable") (some "0xT") "agent-1" none
        "hello there" none "0xuser" =
      ReadOutcome.unknown (unknownResponse none) :=
  unknown_read_clarifies.1 (fun _ => Except.error "node unreachable") "0xT" "agent-1" none
    "hello there" none "0xuser" (by decide)

/-- C6: in the registration compile, a gas-estimation failure falls back to
the conservative default 500000 (not zero) instead of aborting, a gas-price
failure is downgraded to null, and in both cases the transaction preview is
still returned successfully. -/
theorem register_gas_failures_downgraded :
    (∀ (txData : Option String) (e : String) (priceResult : Except String Nat)
        (name registryAddress : String),
        RegisterResult.transaction (registerAgent txData (Except.error e) priceResult
          name registryAddress) =
          TxPreview.mk registryAddress txData "0" (Nat.repr 500000)
            ("Register agent '" ++ name ++ "'") "registerAgent"
            ["Gas fees will apply", "You will grant your agent configuration on-chain"] ∧
        Nat.repr 500000 = "500000" ∧ ("500000" : String) ≠ "0") ∧
    (∀ (txData : Option String) (estimateResult : Except String Nat) (e : String)
        (name registryAddress : String),
        RegisterResult.gasPrice (registerAgent txData estimateResult (Except.error e)
          name registryAddress) = none) ∧
    (∀ (txData : Option String) (estimateResult priceResult : Except String Nat)
        (name registryAddress : String),
        RegisterResult.success (registerAgent txData estimateResult priceResult
          name registryAddress) = true ∧
        RegisterResult.requiresTransaction (registerAgent txData estimateResult priceResult
          name registryAddress) = true) := by
  refine ⟨?_, ?_, ?_⟩
  · intro txData e priceResult name registryAddress
    exact ⟨rfl, by decide, by decide⟩
  · intro txData estimateResult e name registryAddress
    cases estimateResult <;> rfl
  · intro txData estimateResult priceResult name registryAddress
    exact ⟨rfl, rfl⟩

/-- C7: on the read path a node-rejected simulated call surfaces as the
query-error outcome whose detail embeds the node's reason string verbatim,
while a decode failure surfaces as the distinct decode-error outcome; the
two constructors are never equal. -/
theorem query_and_decode_errors_distinct :
    (∀ (query : QueryCall → Except String (List Nat)) (target agentId : String)
        (protocol : Option String) (message : String) (action : Option String)
        (userAddress : String) (r : ResolvedRead) (encodedArgs agentIdBytes : List Nat)
        (e : String),
        resolveRead message action userAddress = some r →
        (if r.argTypes.isEmpty then some [] else abiEncode r.argTypes r.args)
          = some encodedArgs →
        normalizeAgentId agentId = some agentIdBytes →
        query ⟨agentIdBytes, target, selector (stripSpaces r.fn) ++ encodedArgs, userAddress⟩
          = Except.error e →
        processRead query (some target) agentId protocol message action userAddress =
          ReadOutcome.queryError ("Query failed: " ++ e)) ∧
    (∀ (query : QueryCall → Except String (List Nat)) (target agentId : String)
        (protocol : Option String) (message : String) (action : Option String)
        (userAddress : String) (r : ResolvedRead) (encodedArgs agentIdBytes raw : List Nat),
        resolveRead message action userAddress = some r →
        (if r.argTypes.isEmpty then some [] else abiEncode r.argTypes r.args)
          = some encodedArgs →
        normalizeAgentId agentId = some agentIdBytes →
        query ⟨agentIdBytes, target, selector (stripSpaces r.fn) ++ encodedArgs, userAddress⟩
          = Except.ok raw →
        (if r.outTypes.isEmpty then some [] else decodeUints r.outTypes.length raw) = none →
        processRead query (some target) agentId protocol message action userAddress =
          ReadOutcome.decodeError) ∧
    (∀ detail : String, ReadOutcome.queryError detail ≠ ReadOutcome.decodeError) := by
  refine ⟨?_, ?_, ?_⟩
  · intro query target agentId protocol message action userAddress r encodedArgs agentIdBytes
      e hres henc hnorm hq
    simp only [processRead, hres, henc, hnorm, hq]
  · intro query target agentId protocol message action userAddress r encodedArgs agentIdBytes
      raw hres henc hnorm hq hdec
    simp only [processRead, hres, henc, hnorm, hq, hdec]
  · intro detail
    exact fun h => ReadOutcome.noConfusion h

/-- Witness for C7: a node revert becomes the query-error outcome with the
reason embedded; a 0-byte return for a uint256 becomes the decode-error
outcome. -/
theorem query_and_decode_errors_distinct_witness :
    processRead (fun _ => Except.error "execution reverted") (some "0xT") "erc20-2" none
        "my balance" none "0xaaaaaaaaaaaaaaaaaaaaaaaaaaaaaaaaaaaaaaaa" =
      ReadOutcome.queryError ("Query failed: " ++ "execution reverted") ∧
    processRead (fun _ => Except.ok []) (some "0xT") "erc20-2" none
        "my balance" none "0xaaaaaaaaaaaaaaaaaaaaaaaaaaaaaaaaaaaaaaaa" =
      ReadOutcome.decodeError :=
  ⟨query_and_decode_errors_distinct.1 (fun _ => Except.error "execution reverted") "0xT"
      "erc20-2" none "my balance" none "0xaaaaaaaaaaaaaaaaaaaaaaaaaaaaaaaaaaaaaaaa"
      ⟨"balanceOf(address)", ["address"], ["0xaaaaaaaaaaaaaaaaaaaaaaaaaaaaaaaaaaaaaaaa"],
        ["uint256"], ["balance"]⟩
      (List.replicate 12 0 ++ List.replicate 20 0xaa)
      ([101, 114, 99, 50, 48, 45, 50] ++ List.replicate 25 0)
      "execution reverted" (by decide) (by decide) (by decide) rfl,
   query_and_decode_errors_distinct.2.1 (fun _ => Except.ok []) "0xT"
      "erc20-2" none "my balance" none "0xaaaaaaaaaaaaaaaaaaaaaaaaaaaaaaaaaaaaaaaa"
      ⟨"balanceOf(address)", ["address"], ["0xaaaaaaaaaaaaaaaaaaaaaaaaaaaaaaaaaaaaaaaa"],
        ["uint256"], ["balance"]⟩
      (List.replicate 12 0 ++ List.replicate 20 0xaa)
      ([101, 114, 99, 50, 48, 45, 50] ++ List.replicate 25 0) []
      (by decide) (by decide) (by decide) rfl (by decide)⟩

/-- C8: a missing receipt yields the pending outcome; a receipt none of
whose logs decodes as AgentRegistered — including a receipt with zero
logs — yields the distinct event-not-found outcome; neither raises; and a
log that does not decode is silently skipped. -/
theorem confirm_receipt_outcomes :
    (∀ (dec : Nat → Option String) (fetch : String → Option AgentTuple)
        (cacheOk : Bool) (txHash : String),
        confirmRegistration dec fetch cacheOk none txHash =
          (ConfirmOutcome.pending txHash, none)) ∧
    (∀ (dec : Nat → Option String) (fetch : String → Option AgentTuple)
        (cacheOk : Bool) (txHash : String) (logs : List Nat),
        (∀ l ∈ logs, dec l = none) →
          confirmRegistration dec fetch cacheOk (some logs) txHash =
            (ConfirmOutcome.eventNotFound txHash, none)) ∧
    (∀ (dec : Nat → Option String) (fetch : String → Option AgentTuple)
        (cacheOk : Bool) (txHash : String),
        confirmRegistration dec fetch cacheOk (some []) txHash =
          (ConfirmOutcome.eventNotFound txHash, none)) ∧
    (∀ txHash : String,
        ConfirmOutcome.pending txHash ≠ ConfirmOutcome.eventNotFound txHash) ∧
    (∀ (dec : Nat → Option String) (fetch : String → Option AgentTuple)
        (cacheOk : Bool) (txHash : String) (l : Nat) (logs : List Nat),
        dec l = none →
          confirmRegistration dec fetch cacheOk (some (l :: logs)) txHash =
            confirmRegistration dec fetch cacheOk (some logs) txHash) := by
  refine ⟨?_, ?_, ?_, ?_, ?_⟩
  · intro dec fetch cacheOk txHash
    rfl
  · intro dec fetch cacheOk txHash logs h
    have hfind : logs.findSome? dec = none := by
      rw [List.findSome?_eq_none_iff]
      exact h
    simp [confirmRegistration, hfind]
  · intro dec fetch cacheOk txHash
    rfl
  · intro txHash
    exact fun h => ConfirmOutcome.noConfusion h
  · intro dec fetch cacheOk txHash l logs h
    simp [confirmRegistration, List.findSome?_cons, h]

/-- Witness for C8 at a concrete two-log receipt where no log decodes. -/
theorem confirm_receipt_outcomes_witness :
    confirmRegistration (fun _ => none) (fun _ => none) true (some [1, 2]) "0xabc" =
      (ConfirmOutcome.eventNotFound "0xabc", none) :=
  confirm_receipt_outcomes.2.1 (fun _ => none) (fun _ => none) true "0xabc" [1, 2]
    (fun _ _ => rfl)

/-- C9: the cache upsert is reached only after a receipt was found, the
AgentRegistered event extracted and the authoritative record fetched; and
the upsert's result never changes the response: with a failed cache write
the confirmation still reports success with the extracted identifier. -/
theorem confirm_cache_best_effort :
    (∀ (dec : Nat → Option String) (fetch : String → Option AgentTuple)
        (cacheOk cacheOk' : Bool) (receipt : Option (List Nat)) (txHash : String),
        (confirmRegistration dec fetch cacheOk receipt txHash).1 =
          (confirmRegistration dec fetch cacheOk' receipt txHash).1) ∧
    (∀ (dec : Nat → Option String) (fetch : String → Option AgentTuple)
        (cacheOk : Bool) (receipt : Option (List Nat)) (txHash : String),
        (confirmRegistration dec fetch cacheOk receipt txHash).2 ≠ none →
          ∃ logs agentId t, receipt = some logs ∧ logs.findSome? dec = some agentId ∧
            fetch agentId = some t) ∧
    (∀ (dec : Nat → Option String) (fetch : String → Option AgentTuple)
        (txHash agentId : String) (t : AgentTuple) (logs : List Nat),
        logs.findSome? dec = some agentId → fetch agentId = some t →
          confirmRegistration dec fetch false (some logs) txHash =
            (ConfirmOutcome.ok agentId
              (some ⟨agentId, t.owner, t.targetContract, t.name, t.active⟩) txHash,
              some false)) := by
  refine ⟨?_, ?_, ?_⟩
  · intro dec fetch cacheOk cacheOk' receipt txHash
    cases receipt with
    | none => rfl
    | some logs =>
        cases hfind : logs.findSome? dec with
        | none => simp [confirmRegistration, hfind]
        | some agentId =>
            cases hfetch : fetch agentId with
            | none => simp [confirmRegistration, hfind, hfetch]
            | some t => simp [confirmRegistration, hfind, hfetch]
  · intro dec fetch cacheOk receipt txHash h
    cases receipt with
    | none => exact absurd rfl h
    | some logs =>
        refine ⟨logs, ?_⟩
        cases hfind : logs.findSome? dec with
        | none =>
            exfalso
            apply h
            simp [confirmRegistration, hfind]
        | some agentId =>
            cases hfetch : fetch agentId with
            | none =>
                exfalso
                apply h
                simp [confirmRegistration, hfind, hfetch]
            | some t => exact ⟨agentId, t, rfl, rfl, hfetch⟩
  · intro dec fetch txHash agentId t logs hfind hfetch
    simp [confirmRegistration, hfind, hfetch]

/-- Witness for C9: one decodable log, the fetch succeeds, the cache write
fails, the response still reports success with the extracted id. -/
theorem confirm_cache_best_effort_witness :
    confirmRegistration (fun l => if l = 7 then some "0xagent" else none)
        (fun _ => some ⟨"0xowner", "0xtarget", "my agent", "ipfs://cfg", true⟩)
        false (some [7]) "0xdef" =
      (ConfirmOutcome.ok "0xagent"
        (some ⟨"0xagent", "0xowner", "0xtarget", "my agent", true⟩) "0xdef",
        some false) :=
  confirm_cache_best_effort.2.2 (fun l => if l = 7 then some "0xagent" else none)
    (fun _ => some ⟨"0xowner", "0xtarget", "my agent", "ipfs://cfg", true⟩)
    "0xdef" "0xagent" ⟨"0xowner", "0xtarget", "my agent", "ipfs://cfg", true⟩ [7]
    (by simp) rfl

/-- C10: validate_transaction and is_agent_active are total Boolean
functions that answer False whenever identifier or selector conversion
fails or the chain call itself fails, so a failure is indistinguishable
from a negative answer; a True answer can only come from a successful
chain call returning True. -/
theorem validate_false_on_failure :
    (∀ (hubValidate : List Nat → String → List Nat → String → Except String Bool)
        (agentId target functionSelector userAddress : String),
        normalizeAgentId agentId = none →
          validateTransaction hubValidate agentId target functionSelector userAddress = false) ∧
    (∀ (hubValidate : List Nat → String → List Nat → String → Except String Bool)
        (agentId target functionSelector userAddress : String),
        selectorToBytes functionSelector = none →
          validateTransaction hubValidate agentId target functionSelector userAddress = false) ∧
    (∀ (hubValidate : List Nat → String → List Nat → String → Except String Bool)
        (agentId target functionSelector userAddress : String) (ab sb : List Nat) (e : String),
        normalizeAgentId agentId = some ab → selectorToBytes functionSelector = some sb →
          hubValidate ab target sb userAddress = Except.error e →
            validateTransaction hubValidate agentId target functionSelector userAddress = false) ∧
    (∀ (hubValidate : List Nat → String → List Nat → String → Except String Bool)
        (agentId target functionSelector userAddress : String),
        validateTransaction hubValidate agentId target functionSelector userAddress = true →
          ∃ ab sb, normalizeAgentId agentId = some ab ∧
            selectorToBytes functionSelector = some sb ∧
            hubValidate ab target sb userAddress = Except.ok true) ∧
    (∀ (registryIsActive : List Nat → Except String Bool) (agentId : String),
        normalizeAgentId agentId = none → isAgentActive registryIsActive agentId = false) ∧
    (∀ (registryIsActive : List Nat → Except String Bool) (agentId : String)
        (ab : List Nat) (e : String),
        normalizeAgentId agentId = some ab → registryIsActive ab = Except.error e →
          isAgentActive registryIsActive agentId = false) ∧
    (∀ (registryIsActive : List Nat → Except String Bool) (agentId : String),
        isAgentActive registryIsActive agentId = true →
          ∃ ab, normalizeAgentId agentId = some ab ∧ registryIsActive ab = Except.ok true) := by
  refine ⟨?_, ?_, ?_, ?_, ?_, ?_, ?_⟩
  · intro hubValidate agentId target functionSelector userAddress h
    simp [validateTransaction, h]
  · intro hubValidate agentId target functionSelector userAddress h
    cases hn : normalizeAgentId agentId <;> simp [validateTransaction, hn, h]
  · intro hubValidate agentId target functionSelector userAddress ab sb e hn hs hc
    simp [validateTransaction, hn, hs, hc]
  · intro hubValidate agentId target functionSelector userAddress h
    simp only [validateTransaction] at h
    cases hn : normalizeAgentId agentId with
    | none => simp [hn] at h
    | some ab =>
        simp only [hn] at h
        cases hs : selectorToBytes functionSelector with
        | none => simp [hs] at h
        | some sb =>
            simp only [hs] at h
            cases hc : hubValidate ab target sb userAddress with
            | error e => simp [hc] at h
            | ok v =>
                simp only [hc] at h
                exact ⟨ab, sb, rfl, rfl, by rw [hc, h]⟩
  · intro registryIsActive agentId h
    simp [isAgentActive, h]
  · intro registryIsActive agentId ab e hn hc
    simp [isAgentActive, hn, hc]
  · intro registryIsActive agentId h
    simp only [isAgentActive] at h
    cases hn : normalizeAgentId agentId with
    | none => simp [hn] at h
    | some ab =>
        simp only [hn] at h
        cases hc : registryIsActive ab with
        | error e => simp [hc] at h
        | ok v =>
            simp only [hc] at h
            exact ⟨ab, rfl, by rw [hc, h]⟩

/-- Witness for C10: an ill-formed hex identifier ("0xzz") and an erroring
node both come out as False. -/
theorem validate_false_on_failure_witness :
    validateTransaction (fun _ _ _ _ => Except.ok true) "0xzz" "0xT" "0x70a08231" "0xU" = false ∧
    validateTransaction (fun _ _ _ _ => Except.error "node down") "agent-1" "0xT" "stake(uint256)"
        "0xU" = false ∧
    isAgentActive (fun _ => Except.error "node down") "agent-1" = false :=
  ⟨validate_false_on_failure.1 (fun _ _ _ _ => Except.ok true) "0xzz" "0xT" "0x70a08231" "0xU"
      (by decide),
   validate_false_on_failure.2.2.1 (fun _ _ _ _ => Except.error "node down") "agent-1" "0xT"
      "stake(uint256)" "0xU" ([97, 103, 101, 110, 116, 45, 49] ++ List.replicate 25 0)
      [115, 116, 97, 107] "node down" (by decide) (by decide) rfl,
   validate_false_on_failure.2.2.2.2.2.1 (fun _ => Except.error "node down") "agent-1"
      ([97, 103, 101, 110, 116, 45, 49] ++ List.replicate 25 0) "node down" (by decide) rfl⟩

end ContractMind
